import Mathlib

/-!
Verification of the dynamic tabular-data analysis engine in
`src/back-end/agent.ts` (functions `analyzeDynamically`, `inferFieldMeanings`,
`relationships`, `patterns`, `anomalies`, `dataQuality`, `businessContext`,
`correlation`, `trend`, `variance`, `distribution`, `mostCommon`,
`sequentialPattern`).

Modelling conventions:
- JS numbers are modelled as exact rationals `ℚ`; quantities produced through
  `Math.sqrt` (Pearson correlation, trend strength, the anomaly threshold and
  severity) live in `ℝ` via `Real.sqrt`.
- A JS record (`DataRecord`) is an ordered association list
  `List (String × Option Value)`; a `none` value models a key that is present
  but `undefined`.  Property lookup on an absent key also yields `undefined`
  (`none`).  The TS type admits no `null` values.
- External library behaviour that the engine merely calls into —
  `new Date(v).getTime()`, `Number(string)` and `String(number)` — is
  abstracted as an explicit parameter record `JSPrims`.
- The engine keeps the dataset as the ambient module value
  `sourceData.attributes`; following the explicit-context-passing reading, the
  embedding passes the dataset in and returns the dataset state out (the
  in-place `Array.prototype.sort` in the `time_series` branch becomes explicit
  state threading).
-/

set_option synthInstance.maxSize 4000

namespace Agent

/-- A JS scalar value: a (finite) number or a string. -/
inductive Value where
  | num (q : ℚ)
  | str (s : String)
deriving DecidableEq

/-- A data record: ordered key/value list; `none` is a present-but-`undefined`
value.  Mirrors `DataRecord` in agent.ts. -/
abbrev Record := List (String × Option Value)

/-- First-match association-list lookup, as JS property access on objects built
with first-write key order. -/
def getKey {β : Type} : List (String × β) → String → Option β
  | [], _ => none
  | (k, v) :: rest, f => if k = f then some v else getKey rest f

/-- Source `row[field]` : `undefined` (`none`) when the key is absent or holds
`undefined`. -/
def lookupVal (r : Record) (f : String) : Option Value :=
  (getKey r f).join

/-- Source `Object.keys(data[0] || {})` (agent.ts line 467). -/
def fieldsOf : List Record → List String
  | [] => []
  | r :: _ => r.map Prod.fst

/-- Source `data.map(row => row[field]).filter(v => v !== undefined && v !== null)`
(agent.ts line 475). -/
def collectVals (data : List Record) (f : String) : List Value :=
  data.filterMap (fun r => lookupVal r f)

/-- Source `typeof v === "number" && !isNaN(v)` for a defined value. -/
def valIsNum : Value → Bool
  | .num _ => true
  | .str _ => false

/-- Extract the numbers of a value list (the `values as number[]` cast sites). -/
def numsOf (values : List Value) : List ℚ :=
  values.filterMap (fun v => match v with | .num q => some q | .str _ => none)

/-- External JS runtime primitives the engine calls but does not implement:
date parsing, string-to-number coercion, number-to-string conversion.
`none` models `NaN` / an invalid date. -/
structure JSPrims where
  parseDate : Value → Option Int
  numOfString : String → Option ℚ
  stringOfNum : ℚ → String

/-- JS truthiness of a defined scalar (`0` and `""` are falsy). -/
def truthyVal : Value → Bool
  | .num q => decide (q ≠ 0)
  | .str s => decide (s ≠ "")

/-- Source `Number(v)` coercion of a defined value; `none` is `NaN`. -/
def jsNumber (js : JSPrims) : Value → Option ℚ
  | .num q => some q
  | .str s => js.numOfString s

/-- Whether the character list `s` starts with the character list `pat`. -/
def charsStartWith : List Char → List Char → Bool
  | _, [] => true
  | [], _ :: _ => false
  | a :: as, b :: bs => a == b && charsStartWith as bs

/-- Whether `pat` occurs as a contiguous run inside `s`. -/
def charsContain : List Char → List Char → Bool
  | [], pat => pat.isEmpty
  | a :: rest, pat => charsStartWith (a :: rest) pat || charsContain rest pat

/-- Source `s.includes(pat)` on strings. -/
def strIncludes (s pat : String) : Bool :=
  charsContain s.toList pat.toList

/-- Source `s.toLowerCase()` (character-wise, structurally recursive). -/
def jsToLower (s : String) : String :=
  ⟨s.data.map Char.toLower⟩

/-- Stable insertion of `a` after every element `b` with `le b a`. -/
def insertLe {α : Type} (le : α → α → Bool) (a : α) : List α → List α
  | [] => [a]
  | b :: rest => if le b a then b :: insertLe le a rest else a :: b :: rest

/-- Stable sort by a total boolean preorder: the order Array.prototype.sort
must produce for a consistent comparator (stable since ES2019). -/
def stableSortBy {α : Type} (le : α → α → Bool) (l : List α) : List α :=
  l.foldl (fun acc a => insertLe le a acc) []

/-- Source `Math.min(...values)` under the caller's nonemptiness guard. -/
def listMin : List ℚ → ℚ
  | [] => 0
  | h :: t => t.foldl min h

/-- Source `Math.max(...values)` under the caller's nonemptiness guard. -/
def listMax : List ℚ → ℚ
  | [] => 0
  | h :: t => t.foldl max h

/-- Source `variance` (agent.ts lines 1054-1058): population variance, mean of squared
deviations. -/
def variance (values : List ℚ) : ℚ :=
  if values.length < 1 then 0
  else
    let mean := values.sum / (values.length : ℚ)
    (values.map (fun val => (val - mean) ^ 2)).sum / (values.length : ℚ)

/-- Increment a count key, preserving first-write key order (JS object key
semantics). -/
def incrKey : List (String × ℕ) → String → List (String × ℕ)
  | [], k => [(k, 1)]
  | (k', c) :: rest, k => if k' = k then (k', c + 1) :: rest else (k', c) :: incrKey rest k

/-- The string a value turns into when used as a JS object key. -/
def jsKeyOf (js : JSPrims) : Value → String
  | .num q => js.stringOfNum q
  | .str s => s

/-- Source `distribution` (agent.ts lines 1060-1066): value-count map keyed by the
stringified value. -/
def distribution (js : JSPrims) (values : List Value) : List (String × ℕ) :=
  values.foldl (fun d v => incrKey d (jsKeyOf js v)) []

/-- Source `mostCommon` (agent.ts lines 1068-1072): `Object.keys(dist).reduce(
(a, b) => dist[a] > dist[b] ? a : b)`; ties keep the later key. -/
def mostCommon (js : JSPrims) (values : List Value) : Option String :=
  let dist := distribution js values
  match dist.map Prod.fst with
  | [] => none
  | k :: ks =>
    some (ks.foldl (fun a b =>
      if (getKey dist a).getD 0 > (getKey dist b).getD 0 then a else b) k)

/-- Source `sequentialPattern` (agent.ts lines 1074-1081). -/
def sequentialPattern (js : JSPrims) (values : List Value) : Bool :=
  if values.length < 2 then false
  else
    let numericValues := values.filterMap (jsNumber js)
    if numericValues.length < 2 then false
    else
      let diffs := List.zipWith (fun b a => b - a) numericValues.tail numericValues
      let avgDiff := diffs.sum / (diffs.length : ℚ)
      diffs.all (fun d => decide (|d - avgDiff| < avgDiff * (1 / 10)))

/-- The per-field classification record (agent.ts lines 484-492). -/
structure FieldType where
  type : String
  isIdentifier : Bool
  isBoolean : Bool
  isTemporal : Bool
  uniqueCount : ℕ
  totalCount : ℕ
  sparsity : ℚ
deriving DecidableEq

/-- Source `isNumeric` of the per-field loop (agent.ts line 478): every collected
value is a number. -/
def fieldIsNumericVals (data : List Record) (field : String) : Bool :=
  (collectVals data field).all valIsNum

/-- Source `isBoolean` (agent.ts line 479): at most 2 distinct values, all in
`{0, 1}`. -/
def fieldIsBooleanVals (data : List Record) (field : String) : Bool :=
  (collectVals data field).eraseDups.length ≤ 2 &&
    (collectVals data field).eraseDups.all (fun v => v == Value.num 0 || v == Value.num 1)

/-- Source `isIdentifier` (agent.ts line 480): the lowercase name contains "id" or
"number". -/
def fieldIsIdentifierName (field : String) : Bool :=
  strIncludes (jsToLower field) "id" || strIncludes (jsToLower field) "number"

/-- Source `isCategorical` (agent.ts line 481): not numeric and distinct count below
half the collected count. -/
def fieldIsCategoricalVals (data : List Record) (field : String) : Bool :=
  !fieldIsNumericVals data field &&
    decide (((collectVals data field).eraseDups.length : ℚ) <
      ((collectVals data field).length : ℚ) * (1 / 2))

/-- Source `isTemporal` (agent.ts line 482): the lowercase name contains "date" or
"time". -/
def fieldIsTemporalName (field : String) : Bool :=
  strIncludes (jsToLower field) "date" || strIncludes (jsToLower field) "time"

/-- Field-type inference for one field (agent.ts lines 474-492). -/
def typeFor (data : List Record) (field : String) : FieldType :=
  { type :=
      if fieldIsNumericVals data field then "numeric"
      else if fieldIsCategoricalVals data field then "categorical"
      else if fieldIsTemporalName field then "temporal"
      else "text"
    isIdentifier := fieldIsIdentifierName field
    isBoolean := fieldIsBooleanVals data field
    isTemporal := fieldIsTemporalName field
    uniqueCount := (collectVals data field).eraseDups.length
    totalCount := (collectVals data field).length
    sparsity := ((data.length : ℚ) - ((collectVals data field).length : ℚ)) / (data.length : ℚ) }

/-- Numeric per-field statistics (agent.ts lines 495-501). -/
structure NumStats where
  min : ℚ
  max : ℚ
  avg : ℚ
  sum : ℚ
  variance : ℚ
deriving DecidableEq

/-- A `fieldStats` entry: numeric summary, or distribution plus mode. -/
inductive StatsEntry where
  | numeric (s : NumStats)
  | dist (distribution : List (String × ℕ)) (mostCommon : Option String)
deriving DecidableEq

/-- Source `targetFields.includes(field) || targetFields.length === 0` (agent.ts
line 494). -/
def fieldSelected (targetFields : List String) (field : String) : Bool :=
  targetFields.contains field || targetFields.isEmpty

/-- The numeric stats object (agent.ts lines 495-501): `values.length ? _ : 0`
guards every component. -/
def numStatsOf (values : List Value) : NumStats :=
  { min := if values.isEmpty then 0 else listMin (numsOf values)
    max := if values.isEmpty then 0 else listMax (numsOf values)
    avg := if values.isEmpty then 0 else (numsOf values).sum / (values.length : ℚ)
    sum := if values.isEmpty then 0 else (numsOf values).sum
    variance := if values.isEmpty then 0 else variance (numsOf values) }

/-- The `fieldStats` branch of the per-field loop (agent.ts lines 494-509);
`none` means the field goes to `timeSeries` instead. -/
def statsFor (js : JSPrims) (data : List Record) (targetFields : List String)
    (field : String) : Option StatsEntry :=
  if fieldIsNumericVals data field && fieldSelected targetFields field then
    some (.numeric (numStatsOf (collectVals data field)))
  else if fieldIsTemporalName field then none
  else some (.dist (distribution js (collectVals data field))
    (if (collectVals data field).isEmpty then none
      else mostCommon js (collectVals data field)))

/-- The `timeSeries` branch of the per-field loop (agent.ts lines 502-503). -/
def tsFor (data : List Record) (targetFields : List String) (field : String) :
    Option (List (Option Value × Record)) :=
  if fieldIsNumericVals data field && fieldSelected targetFields field then none
  else if fieldIsTemporalName field then some (data.map (fun row => (lookupVal row field, row)))
  else none

/-- The `fieldTypes` map built by the per-field loop. -/
def fieldTypesOf (data : List Record) : List (String × FieldType) :=
  (fieldsOf data).map (fun f => (f, typeFor data f))

/-- The `fieldStats` map built by the per-field loop. -/
def fieldStatsOf (js : JSPrims) (data : List Record) (targetFields : List String) :
    List (String × StatsEntry) :=
  (fieldsOf data).filterMap (fun f => (statsFor js data targetFields f).map (fun e => (f, e)))

/-- The `timeSeries` map built by the per-field loop. -/
def timeSeriesOf (data : List Record) (targetFields : List String) :
    List (String × List (Option Value × Record)) :=
  (fieldsOf data).filterMap (fun f => (tsFor data targetFields f).map (fun e => (f, e)))

/-- Source `fieldTypes[f]?.type === "numeric"`. -/
def typeIsNumeric (ftypes : List (String × FieldType)) (f : String) : Bool :=
  match getKey ftypes f with
  | some ft => ft.type == "numeric"
  | none => false

/-- Source `validFields` (agent.ts lines 513-515). -/
def validFieldsOf (data : List Record) (targetFields : List String) : List String :=
  targetFields.filter (fun f =>
    (fieldsOf data).contains f && typeIsNumeric (fieldTypesOf data) f)

/-- Source `analysisFields` (agent.ts line 516). -/
def analysisFieldsOf (js : JSPrims) (data : List Record) (targetFields : List String) :
    List String :=
  let v := validFieldsOf data targetFields
  if v.isEmpty then (fieldStatsOf js data targetFields).map Prod.fst else v

/-- Source `n * sumXY - sumX * sumY` of `correlation` (agent.ts lines 1037-1045),
with `n = x.length`. -/
def corrNum (x y : List ℚ) : ℚ :=
  (x.length : ℚ) * (List.zipWith (fun a b => a * b) x y).sum - x.sum * y.sum

/-- Source `(n * sumX2 - sumX * sumX) * (n * sumY2 - sumY * sumY)` of `correlation`
(agent.ts line 1044), with `n = x.length`. -/
def corrDen (x y : List ℚ) : ℚ :=
  ((x.length : ℚ) * (x.map (fun v => v * v)).sum - x.sum * x.sum) *
    ((x.length : ℚ) * (y.map (fun v => v * v)).sum - y.sum * y.sum)

/-- Source `correlation` (agent.ts lines 1034-1046): Pearson correlation in exact real
arithmetic; 0 on length mismatch, short vectors, or a zero denominator. -/
noncomputable def correlation (x y : List ℚ) : ℝ :=
  if x.length ≠ y.length ∨ x.length < 2 then 0
  else
    if Real.sqrt ((corrDen x y : ℚ) : ℝ) = 0 then 0
    else ((corrNum x y : ℚ) : ℝ) / Real.sqrt ((corrDen x y : ℚ) : ℝ)

/-- Source `trend` (agent.ts lines 1048-1052): correlation of a value sequence with its
index sequence. -/
noncomputable def trend (values : List ℚ) : ℝ :=
  if values.length < 2 then 0
  else correlation ((List.range values.length).map (fun i => (i : ℚ))) values

/-- Source `data.map(row => row[f]).filter(v => typeof v === "number" && !isNaN(v))`
(agent.ts lines 871-872, 897). -/
def numValsOf (data : List Record) (f : String) : List ℚ :=
  data.filterMap (fun row => match lookupVal row f with
    | some (.num q) => some q
    | _ => none)

/-- An emitted correlation relationship. -/
structure Rel where
  field1 : String
  field2 : String
  type : String
  strength : ℝ
  direction : String

/-- All ordered pairs `(l[i], l[j])` with `i < j`, in loop order. -/
def pairsAfter {α : Type} : List α → List (α × α)
  | [] => []
  | a :: rest => rest.map (fun b => (a, b)) ++ pairsAfter rest

/-- The loop body of `relationships` for one field pair (agent.ts lines
871-885): both value vectors need more than one element, and the relationship
is pushed only when `|corr| > 0.5`. -/
noncomputable def relEmit (data : List Record) (p : String × String) : Option Rel :=
  if 1 < (numValsOf data p.1).length ∧ 1 < (numValsOf data p.2).length then
    if 0.5 < |correlation (numValsOf data p.1) (numValsOf data p.2)| then
      some { field1 := p.1, field2 := p.2, type := "correlation",
             strength := correlation (numValsOf data p.1) (numValsOf data p.2),
             direction :=
               if 0 < correlation (numValsOf data p.1) (numValsOf data p.2) then "positive"
               else "negative" }
    else none
  else none

/-- Source `relationships` (agent.ts lines 862-890). -/
noncomputable def relationships (data : List Record) (fields : List String)
    (ftypes : List (String × FieldType)) : List Rel :=
  (pairsAfter (fields.filter (typeIsNumeric ftypes))).filterMap (relEmit data)

/-- An emitted trend pattern. -/
structure Pattern where
  type : String
  field : String
  direction : String
  strength : ℝ

/-- Source `patterns` (agent.ts lines 892-913). -/
noncomputable def patterns (data : List Record) (fields : List String)
    (ftypes : List (String × FieldType)) : List Pattern :=
  fields.filterMap (fun field =>
    if typeIsNumeric ftypes field then
      let values := numValsOf data field
      if 1 < values.length then
        let trendVal := trend values
        if 0.3 < |trendVal| then
          some { type := "trend", field := field,
                 direction := if 0 < trendVal then "increasing" else "decreasing",
                 strength := |trendVal| }
        else none
      else none
    else none)

/-- An emitted anomaly (agent.ts lines 924-930). -/
structure Anomaly where
  field : String
  record : ℕ
  value : Option Value
  type : String
  severity : ℝ

/-- Source `row[field] > threshold` under JS coercion: `undefined` compares false,
a string coerces through `ToNumber`, `NaN` compares false. -/
noncomputable def jsGTReal (js : JSPrims) (v : Option Value) (t : ℝ) : Bool :=
  match v with
  | some w =>
    match jsNumber js w with
    | some q => decide (t < (q : ℝ))
    | none => false
  | none => false

/-- The threshold `stats.avg + 2 * Math.sqrt(stats.variance)` (agent.ts line
921). -/
noncomputable def anomalyThreshold (avg var : ℚ) : ℝ :=
  (avg : ℝ) + 2 * Real.sqrt ((var : ℚ) : ℝ)

/-- The flag `row[field] > threshold` (agent.ts line 923).  The `0 ≤ var`
conjunct models that `Math.sqrt` of a negative variance is `NaN`, making the
JS comparison false (the variances the engine produces are always
nonnegative). -/
noncomputable def anomalyFlagged (js : JSPrims) (f : String) (avg var : ℚ)
    (row : Record) : Bool :=
  decide (0 ≤ var) && jsGTReal js (lookupVal row f) (anomalyThreshold avg var)

/-- The anomaly pushed for one qualifying record (agent.ts lines 924-930). -/
noncomputable def anomalyAt (js : JSPrims) (f : String) (avg var : ℚ) (i : ℕ)
    (row : Record) : List Anomaly :=
  if anomalyFlagged js f avg var row then
    [{ field := f, record := i, value := lookupVal row f, type := "outlier_high",
       severity :=
         if 0 < anomalyThreshold avg var then
           ((((lookupVal row f).bind (jsNumber js)).getD 0 : ℚ) - anomalyThreshold avg var) /
             anomalyThreshold avg var
         else 0 }]
  else []

/-- The inner record scan of `anomalies` for one field (agent.ts lines
921-933), carrying the record index. -/
noncomputable def anomaliesFrom (js : JSPrims) (f : String) (avg var : ℚ) :
    ℕ → List Record → List Anomaly
  | _, [] => []
  | i, row :: rest => anomalyAt js f avg var i row ++ anomaliesFrom js f avg var (i + 1) rest

/-- Source `anomalies` (agent.ts lines 915-937): fields with `avg` and `variance`
defined are exactly the numeric stats entries. -/
noncomputable def anomalies (js : JSPrims) (data : List Record)
    (fstats : List (String × StatsEntry)) : List Anomaly :=
  fstats.flatMap (fun e => match e.2 with
    | .numeric s => anomaliesFrom js e.1 s.avg s.variance 0 data
    | .dist _ _ => [])

/-- Source `dataQuality` output (agent.ts lines 939-953). -/
structure DataQuality where
  completeness : List (String × ℚ)
  consistency : List (String × String)
  overall : String
deriving DecidableEq

/-- Source `dataQuality` (agent.ts lines 939-953). -/
def dataQuality (data : List Record) (fields : List String) : DataQuality :=
  { completeness := fields.map (fun f =>
      (f, if 0 < data.length then ((collectVals data f).length : ℚ) / (data.length : ℚ) else 0))
    consistency := []
    overall := "good" }

/-- Source `businessContext` output (agent.ts lines 956-961). -/
structure BusinessContext where
  domain : String
  primaryMetrics : List String
  identifiers : List String
  categories : List String
deriving DecidableEq

/-- Source `businessContext` (agent.ts lines 955-984); the unused `data` argument of
the source is dropped. -/
def businessContext (fields : List String) (ftypes : List (String × FieldType)) :
    BusinessContext :=
  let fieldNames := jsToLower (String.intercalate " " fields)
  let domain :=
    if strIncludes fieldNames "ticket" || strIncludes fieldNames "incident" ||
        strIncludes fieldNames "resolved" then "incident_management"
    else if strIncludes fieldNames "sales" || strIncludes fieldNames "revenue" then
      "sales_analytics"
    else if strIncludes fieldNames "user" || strIncludes fieldNames "customer" then
      "customer_analytics"
    else "unknown"
  let isId := fun f => match getKey ftypes f with
    | some t => t.isIdentifier
    | none => false
  { domain := domain
    identifiers := fields.filter isId
    primaryMetrics := fields.filter (fun f => typeIsNumeric ftypes f && !isId f)
    categories := fields.filter (fun f =>
      !isId f && !(typeIsNumeric ftypes f && !isId f) &&
      (match getKey ftypes f with
        | some t => t.type == "categorical"
        | none => false)) }

/-- One focus-area entry of an `AnalysisPlan` (agent.ts lines 9-14);
`config.metrics || []` makes a missing list empty. -/
structure PlanConfig where
  metrics : List String
  dateField : Option String
deriving DecidableEq

/-- The per-field metric object accumulated by the plan loop: keys `total`,
`average`, `trend`, plus `{error}` markers for unsupported metric names. -/
structure FieldMetrics where
  total : Option ℚ := none
  average : Option ℚ := none
  trend : Option (List (Option Value × Option Value)) := none
  unsupported : List (String × String) := []
deriving DecidableEq

/-- A `metrics[field]` entry: either a whole-field error object or a metric
object. -/
inductive FieldEntry where
  | fieldError (msg : String)
  | vals (m : FieldMetrics)
deriving DecidableEq

/-- Insert-or-overwrite preserving first-write key order (JS object
assignment). -/
def upsert {β : Type} : List (String × β) → String → β → List (String × β)
  | [], k, v => [(k, v)]
  | (k', v') :: rest, k, v =>
    if k' = k then (k', v) :: rest else (k', v') :: upsert rest k v

/-- Source `metrics[field] = metrics[field] || {}` (agent.ts line 534). -/
def ensureEntry (entries : List (String × FieldEntry)) (f : String) :
    List (String × FieldEntry) :=
  match getKey entries f with
  | some _ => entries
  | none => upsert entries f (.vals {})

/-- Update the metric object of a field.  The two fall-through arms are
unreachable in the engine's flow: numeric analysis fields never carry a field
error, and `ensureEntry` has always run first. -/
def modifyEntry (entries : List (String × FieldEntry)) (f : String)
    (g : FieldMetrics → FieldMetrics) : List (String × FieldEntry) :=
  match getKey entries f with
  | some (.vals m) => upsert entries f (.vals (g m))
  | some (.fieldError _) => entries
  | none => upsert entries f (.vals (g {}))

/-- The executor state threaded through the plan loop: the `metrics` object
split into per-field entries and the shared `performance_ratio` key, plus the
dataset array (mutable in the source via the in-place sort). -/
structure ExecState where
  entries : List (String × FieldEntry)
  ratioValue : Option ℚ
  data : List Record
deriving DecidableEq

/-- Source `a[dateField] ? new Date(a[dateField]).getTime() : 0` (agent.ts lines
550-551): falsy or missing dates sort as epoch 0; `none` is an invalid date
(`NaN`). -/
def dateKeyOf (js : JSPrims) (d : String) (row : Record) : Option Int :=
  match lookupVal row d with
  | some v => if truthyVal v then js.parseDate v else some 0
  | none => some 0

/-- The comparator `dateA - dateB`: a `NaN` comparison result counts as 0
(ECMAScript SortCompare), i.e. the elements compare as equal. -/
def dateLe (js : JSPrims) (d : String) (a b : Record) : Bool :=
  match dateKeyOf js d a, dateKeyOf js d b with
  | some x, some y => decide (x ≤ y)
  | _, _ => true

/-- Source `data.sort(comparator)` (agent.ts lines 548-553): stable sort by date key
(Array.prototype.sort is stable since ES2019). -/
def sortByDate (js : JSPrims) (d : String) (data : List Record) : List Record :=
  stableSortBy (dateLe js d) data

/-- Source `fieldStats[f]?.sum`: defined only on numeric stats entries. -/
def getSumOf (fstats : List (String × StatsEntry)) (f : String) : Option ℚ :=
  match getKey fstats f with
  | some (.numeric s) => some s.sum
  | _ => none

/-- Source `fieldStats[f]?.avg`: defined only on numeric stats entries. -/
def getAvgOf (fstats : List (String × StatsEntry)) (f : String) : Option ℚ :=
  match getKey fstats f with
  | some (.numeric s) => some s.avg
  | _ => none

/-- JS truthiness of a possibly-undefined number. -/
def truthyQ : Option ℚ → Bool
  | some q => decide (q ≠ 0)
  | none => false

/-- Source `x || 0` on a number (falsy 0 maps to 0). -/
def orZero (q : ℚ) : ℚ := if q = 0 then 0 else q

/-- Source `x || 0` on a possibly-undefined number. -/
def jsOrZero : Option ℚ → ℚ
  | some q => orZero q
  | none => 0

/-- The guard of the `ratio` case (agent.ts lines 561-565):
`analysisFields.length > 1` and both `fieldStats[analysisFields[i]].sum`
truthy. -/
def ratioCond (afs : List String) (fstats : List (String × StatsEntry)) : Bool :=
  match afs with
  | f0 :: f1 :: _ => truthyQ (getSumOf fstats f0) && truthyQ (getSumOf fstats f1)
  | _ => false

/-- The value written to `metrics.performance_ratio` (agent.ts lines 566-567):
`(sum0 / sum1) || 0`. -/
def ratioValOf (afs : List String) (fstats : List (String × StatsEntry)) : ℚ :=
  match afs with
  | f0 :: f1 :: _ => orZero (((getSumOf fstats f0).getD 0) / ((getSumOf fstats f1).getD 0))
  | _ => 0

/-- One iteration of `targetMetrics.forEach(metric => ...)` (agent.ts lines
536-573). -/
def execMetricStep (js : JSPrims) (depth : String) (afs : List String)
    (fstats : List (String × StatsEntry)) (f : String) (cfg : PlanConfig)
    (st : ExecState) (metric : String) : ExecState :=
  if depth == "basic" && metric == "time_series" then st
  else
    match metric with
    | "sum" =>
      { st with entries := (modifyEntry st.entries f
          (fun m => { m with total := some (jsOrZero (getSumOf fstats f)) })) }
    | "avg" =>
      { st with entries := (modifyEntry st.entries f
          (fun m => { m with average := some (jsOrZero (getAvgOf fstats f)) })) }
    | "time_series" =>
      match cfg.dateField with
      | some d =>
        if d = "" then st
        else
          let sorted := sortByDate js d st.data
          let entries2 := modifyEntry st.entries f (fun m =>
            { m with trend := some (sorted.map (fun row =>
                (lookupVal row d, lookupVal row f))) })
          { st with data := sorted, entries := entries2 }
      | none => st
    | "ratio" =>
      if ratioCond afs fstats then { st with ratioValue := some (ratioValOf afs fstats) }
      else st
    | other =>
      { st with entries := (modifyEntry st.entries f (fun m =>
          { m with unsupported := (upsert m.unsupported other ("Unsupported metric: " ++ other)) })) }

/-- One iteration of `analysisFields.forEach(field => ...)` (agent.ts lines
528-574). -/
def execField (js : JSPrims) (depth : String) (afs : List String)
    (ftypes : List (String × FieldType)) (fstats : List (String × StatsEntry))
    (cfg : PlanConfig) (st : ExecState) (f : String) : ExecState :=
  if typeIsNumeric ftypes f then
    cfg.metrics.foldl (execMetricStep js depth afs fstats f cfg)
      { st with entries := ensureEntry st.entries f }
  else
    { st with entries := (upsert st.entries f
        (.fieldError ("Field " ++ f ++ " is missing or non-numeric"))) }

/-- The loop over `Object.entries(plan)` (agent.ts lines 524-575). -/
def execPlan (js : JSPrims) (depth : String) (afs : List String)
    (ftypes : List (String × FieldType)) (fstats : List (String × StatsEntry))
    (st : ExecState) (plan : List (String × PlanConfig)) : ExecState :=
  plan.foldl (fun s entry => afs.foldl (execField js depth afs ftypes fstats entry.2) s) st

/-- The empty-plan fallback (agent.ts lines 519-522). -/
def emptyPlanEntries (focusAreas : List String) (afs : List String) :
    List (String × FieldEntry) :=
  afs.foldl (fun e f => upsert e f
    (.fieldError ("Unsupported focus areas: " ++ String.intercalate ", " focusAreas))) []

/-- The full metric-executor run (agent.ts lines 518-576): `none` models a
plan call that failed or returned a non-object, the empty list an empty plan
object. -/
def execStateOf (js : JSPrims) (focusAreas : List String) (depth : String)
    (targetFields : List String) (data : List Record)
    (planOpt : Option (List (String × PlanConfig))) : ExecState :=
  let afs := analysisFieldsOf js data targetFields
  match planOpt with
  | none => { entries := emptyPlanEntries focusAreas afs, ratioValue := none, data := data }
  | some p =>
    if p.isEmpty then
      { entries := emptyPlanEntries focusAreas afs, ratioValue := none, data := data }
    else
      execPlan js depth afs (fieldTypesOf data) (fieldStatsOf js data targetFields)
        { entries := [], ratioValue := none, data := data } p

/-- The `metrics` object of the findings: per-field entries plus the shared
`performance_ratio` key (kept as a separate component). -/
structure MetricsMap where
  entries : List (String × FieldEntry)
  ratioValue : Option ℚ
deriving DecidableEq

/-- The findings object returned by `analyzeDynamically` (agent.ts lines
578-588). -/
structure Findings where
  fieldTypes : List (String × FieldType)
  fieldStats : List (String × StatsEntry)
  metrics : MetricsMap
  timeSeries : List (String × List (Option Value × Record))
  relationships : List Rel
  patterns : List Pattern
  anomalies : List Anomaly
  dataQuality : DataQuality
  businessContext : BusinessContext

/-- Assemble the findings (agent.ts lines 466-588).  `timeSeries` is built from
the dataset as it was before the plan loop; `relationships`, `patterns`,
`anomalies` and `dataQuality` run on the dataset as the plan loop left it
(the in-place sort may have reordered it).  The second component is the final
dataset state. -/
noncomputable def buildFindings (js : JSPrims) (focusAreas : List String)
    (depth : String) (targetFields : List String) (data : List Record)
    (planOpt : Option (List (String × PlanConfig))) : Findings × List Record :=
  let st := execStateOf js focusAreas depth targetFields data planOpt
  let fields := fieldsOf data
  let ftypes := fieldTypesOf data
  let fstats := fieldStatsOf js data targetFields
  ({ fieldTypes := ftypes
     fieldStats := fstats
     metrics := { entries := st.entries, ratioValue := st.ratioValue }
     timeSeries := timeSeriesOf data targetFields
     relationships := relationships st.data fields ftypes
     patterns := patterns st.data fields ftypes
     anomalies := anomalies js st.data fstats
     dataQuality := dataQuality st.data fields
     businessContext := businessContext fields ftypes }, st.data)

/-- The value returned by `analyzeDynamically`: the typed error object or the
findings, paired with the final state of the module-level dataset array. -/
inductive AnalyzeResult where
  | err (msg : String)
  | ok (findings : Findings) (finalData : List Record)

/-- Source `analyzeDynamically` (agent.ts lines 456-589).  `source = none` models
`sourceData.attributes` absent or not an array; the plan argument stands for
the awaited result of the external `callAIToGeneratePlan`. -/
noncomputable def analyzeDynamically (js : JSPrims) (focusAreas : List String)
    (planOpt : Option (List (String × PlanConfig))) (depth : String)
    (targetFields : List String) (source : Option (List Record)) : AnalyzeResult :=
  match source with
  | none => .err "Invalid or empty data source"
  | some data =>
    if data.isEmpty then .err "Invalid or empty data source"
    else
      let r := buildFindings js focusAreas depth targetFields data planOpt
      .ok r.1 r.2

/-- The final dataset state after a call (the post-call contents of
`sourceData.attributes`). -/
def AnalyzeResult.finalData : AnalyzeResult → Option (List Record)
  | .err _ => none
  | .ok _ d => some d

/-- The `metrics` component of a successful result. -/
def AnalyzeResult.metricsOf : AnalyzeResult → Option MetricsMap
  | .err _ => none
  | .ok f _ => some f.metrics

/-- The `timeSeries` component of a successful result. -/
def AnalyzeResult.tsOf : AnalyzeResult → Option (List (String × List (Option Value × Record)))
  | .err _ => none
  | .ok f _ => some f.timeSeries

/-- A semantic meaning record (agent.ts lines 604-609). -/
structure Meaning where
  fieldName : String
  inferredPurpose : String
  businessRole : String
  visualizationSuitability : List String
deriving DecidableEq

/-- Keyword set `patterns.identifier` (agent.ts line 612). -/
def identifierKeywords : List String := ["id", "number"]

/-- Keyword set `patterns.error` (agent.ts line 613). -/
def errorKeywords : List String := ["error", "failed", "issue", "defect"]

/-- Keyword set `patterns.incident` (agent.ts line 614). -/
def incidentKeywords : List String := ["incident", "ticket", "case", "resolved"]

/-- Keyword set `patterns.percentage` (agent.ts line 615). -/
def percentageKeywords : List String := ["rate", "percent", "ratio"]

/-- Keyword set `patterns.performance` (agent.ts line 616). -/
def performanceKeywords : List String := ["resolved", "time", "count", "efficiency"]

/-- Keyword set `patterns.priority` (agent.ts line 617) — defined in the
source but never consulted by the if chain. -/
def priorityKeywords : List String := ["priority", "severity", "urgency"]

/-- Keyword set `patterns.temporal` (agent.ts line 618). -/
def temporalKeywords : List String := ["date", "time", "timestamp"]

/-- Source `kws.some(p => fieldLower.includes(p))`. -/
def matchesAny (fl : String) (kws : List String) : Bool :=
  kws.any (fun p => strIncludes fl p)

/-- The value-shape fallback of `inferFieldMeanings` (agent.ts lines 645-661).
Note its filter keeps `null` values (only `undefined` is dropped) — the TS
record type has no `null`, so the filter coincides with `collectVals`. -/
def fallbackMeaning (js : JSPrims) (data : List Record) (field : String) : Meaning :=
  let values := data.filterMap (fun row => lookupVal row field)
  let isSequential := if 1 < values.length then sequentialPattern js values else false
  let hasCategories :=
    if values.length ≠ 0 then
      decide ((values.eraseDups.length : ℚ) < (values.length : ℚ) * (1 / 2))
    else false
  if isSequential then
    ⟨field, "sequential/temporal", "progression_tracking", ["x-axis", "timeline", "line"]⟩
  else if hasCategories then
    ⟨field, "categorical_grouping", "classification", ["grouping", "filtering", "pie"]⟩
  else
    ⟨field, "measurement/metric", "quantitative_indicator", ["y-axis", "size", "bar"]⟩

/-- The keyword chain of `inferFieldMeanings` for one field (agent.ts lines
600-664): identifier, error, incident, percentage, performance, temporal, then
the value-shape fallback.  The `priority` keyword set is never checked. -/
def meaningFor (js : JSPrims) (data : List Record) (field : String) : Meaning :=
  let fl := jsToLower field
  if matchesAny fl identifierKeywords then
    ⟨field, "identifier", "tracking/reference", ["axis", "grouping"]⟩
  else if matchesAny fl errorKeywords then
    ⟨field, "error_metric", "quality_indicator", ["y-axis", "rate", "pie", "gauge"]⟩
  else if matchesAny fl incidentKeywords then
    ⟨field, "incident_metric", "incident_tracking", ["y-axis", "count", "bar", "kpi_card"]⟩
  else if matchesAny fl percentageKeywords then
    ⟨field, "percentage_metric", "ratio_indicator", ["pie", "gauge", "donut"]⟩
  else if matchesAny fl performanceKeywords then
    ⟨field, "performance_metric", "efficiency_indicator", ["bar", "kpi_card", "line"]⟩
  else if matchesAny fl temporalKeywords then
    ⟨field, "temporal", "time_tracking", ["x-axis", "timeline", "line", "area"]⟩
  else fallbackMeaning js data field

/-- Source `inferFieldMeanings` (agent.ts lines 592-668). -/
def inferFieldMeanings (js : JSPrims) (fields : List String) (data : List Record) :
    Except String (List (String × Meaning)) :=
  if fields.isEmpty then .error "Invalid or empty fields array"
  else .ok (fields.map (fun f => (f, meaningFor js data f)))

/-- The `inferredPurpose` a result assigns to a field. -/
def purposeOf (r : Except String (List (String × Meaning))) (f : String) : Option String :=
  match r with
  | .ok m => (getKey m f).map (fun mn => mn.inferredPurpose)
  | .error _ => none

/-- A concrete instantiation of the external JS primitives, used by the
concrete evaluations below: it parses the two ISO dates of the demo data and
treats every string as non-numeric. -/
def jsDemo : JSPrims :=
  { parseDate := fun v => match v with
      | .str "2024-01-01" => some 1
      | .str "2024-02-01" => some 2
      | _ => none
    numOfString := fun _ => none
    stringOfNum := fun _ => "" }

/-- Demo record: `resolved = 1` dated February. -/
def recFeb : Record := [("resolved", some (.num 1)), ("date", some (.str "2024-02-01"))]

/-- Demo record: `resolved = 2` dated January. -/
def recJan : Record := [("resolved", some (.num 2)), ("date", some (.str "2024-01-01"))]

/-- Demo plan requesting a time series over `date`. -/
def trendPlan : List (String × PlanConfig) := [("trend", ⟨["time_series"], some "date"⟩)]

/-- Demo record with `a = 5`, `b = 0`. -/
def recAB0 : Record := [("a", some (.num 5)), ("b", some (.num 0))]

/-- Demo record with `a = 6`, `b = 3`. -/
def recAB : Record := [("a", some (.num 6)), ("b", some (.num 3))]

/-- Demo plan requesting the `ratio` metric under one focus area. -/
def ratioPlan : List (String × PlanConfig) := [("perf", ⟨["ratio"], none⟩)]

/- ------------------------------------------------------------------ -/
/- Helper lemmas on the association-list primitives.                   -/
/- ------------------------------------------------------------------ -/

theorem getKey_map_of_mem {β : Type} (g : String → β) (l : List String) (k : String)
    (hk : k ∈ l) : getKey (l.map (fun f => (f, g f))) k = some (g k) := by
  induction l with
  | nil => cases hk
  | cons a t ih =>
    by_cases ha : a = k
    · subst ha
      simp [getKey]
    · rcases List.mem_cons.1 hk with h | h
      · exact absurd h.symm ha
      · simpa [getKey, ha] using ih h

theorem getKey_upsert_self {β : Type} (l : List (String × β)) (k : String) (v : β) :
    getKey (upsert l k v) k = some v := by
  induction l with
  | nil => simp [upsert, getKey]
  | cons a t ih =>
    obtain ⟨a1, a2⟩ := a
    by_cases ha : a1 = k
    · rw [upsert, if_pos ha, getKey, if_pos ha]
    · rw [upsert, if_neg ha, getKey, if_neg ha, ih]

theorem getKey_upsert_of_ne {β : Type} (l : List (String × β)) (k k' : String) (v : β)
    (h : k' ≠ k) : getKey (upsert l k v) k' = getKey l k' := by
  induction l with
  | nil => simp [upsert, getKey, Ne.symm h]
  | cons a t ih =>
    obtain ⟨a1, a2⟩ := a
    by_cases ha : a1 = k
    · subst ha
      rw [upsert, if_pos rfl, getKey, getKey,
        if_neg (fun he => h he.symm), if_neg (fun he => h he.symm)]
    · rw [upsert, if_neg ha, getKey, getKey]
      by_cases ha' : a1 = k'
      · rw [if_pos ha', if_pos ha']
      · rw [if_neg ha', if_neg ha', ih]

theorem getKey_upsert_pres {β : Type} (l : List (String × β)) (k g : String) (v : β)
    (h : getKey l k = some v) : getKey (upsert l g v) k = some v := by
  by_cases hg : g = k
  · subst hg
    exact getKey_upsert_self l g v
  · rw [getKey_upsert_of_ne l g k v (fun h' => hg h'.symm)]
    exact h

theorem getKey_foldl_upsert {β : Type} (c : β) (l : List String)
    (e : List (String × β)) (f : String)
    (h : f ∈ l ∨ getKey e f = some c) :
    getKey (l.foldl (fun acc g => upsert acc g c) e) f = some c := by
  induction l generalizing e with
  | nil =>
    rcases h with h | h
    · cases h
    · exact h
  | cons a t ih =>
    rcases h with h | h
    · rcases List.mem_cons.1 h with h | h
      · subst h
        exact ih (upsert e f c) (Or.inr (getKey_upsert_self e f c))
      · exact ih (upsert e a c) (Or.inl h)
    · exact ih (upsert e a c) (Or.inr (getKey_upsert_pres e f a c h))

theorem getKey_mem {β : Type} (l : List (String × β)) (k : String) (v : β)
    (h : getKey l k = some v) : (k, v) ∈ l := by
  induction l with
  | nil => simp [getKey] at h
  | cons a t ih =>
    obtain ⟨a1, a2⟩ := a
    by_cases ha : a1 = k
    · rw [getKey, if_pos ha] at h
      injection h with h2
      subst ha
      subst h2
      exact List.mem_cons_self _ _
    · rw [getKey, if_neg ha] at h
      exact List.mem_cons_of_mem _ (ih h)

theorem getKey_of_mem_nodup {β : Type} (l : List (String × β)) (k : String) (v : β)
    (hnd : (l.map Prod.fst).Nodup) (hm : (k, v) ∈ l) : getKey l k = some v := by
  induction l with
  | nil => cases hm
  | cons a t ih =>
    rcases List.mem_cons.1 hm with h | h
    · rw [← h]
      simp [getKey]
    · have ha : a.1 ≠ k := by
        intro he
        have : k ∈ t.map Prod.fst := List.mem_map.2 ⟨(k, v), h, rfl⟩
        rw [List.map_cons, List.nodup_cons] at hnd
        exact hnd.1 (he ▸ this)
      rw [getKey, if_neg ha]
      rw [List.map_cons, List.nodup_cons] at hnd
      exact ih hnd.2 h

/- ------------------------------------------------------------------ -/
/- C6 — empty dataset.                                                 -/
/- ------------------------------------------------------------------ -/

/-- C6: for an empty dataset (no records, or an absent/non-array data source),
`analyzeDynamically` returns exactly the typed value
`{error: "Invalid or empty data source"}` — no throw, and no field types,
stats, metrics or other findings are part of the result. -/
theorem c6_empty_source (js : JSPrims) (focusAreas : List String)
    (planOpt : Option (List (String × PlanConfig))) (depth : String)
    (targetFields : List String) (source : Option (List Record))
    (h : source = none ∨ source = some []) :
    analyzeDynamically js focusAreas planOpt depth targetFields source =
      .err "Invalid or empty data source" := by
  rcases h with h | h <;> subst h <;> rfl

/-- Witness for C6 at a concrete empty input. -/
theorem c6_empty_source_witness :
    ((some ([] : List Record) = none ∨ some ([] : List Record) = some []) ∧
      analyzeDynamically jsDemo ["total"] none "detailed" [] (some []) =
        .err "Invalid or empty data source") :=
  ⟨Or.inr rfl, c6_empty_source jsDemo ["total"] none "detailed" [] (some []) (Or.inr rfl)⟩

/- ------------------------------------------------------------------ -/
/- C2 — the "incidentCount" scenario.                                  -/
/- ------------------------------------------------------------------ -/

/-- C2 counterexample: for the field name "incidentCount" the semantic
inferrer returns `inferredPurpose = "identifier"`, not `"incident_metric"`:
`"incidentcount"` contains the identifier keyword `"id"` (inside
"inc**id**ent"), and the identifier category is checked first. -/
theorem c2_counterexample :
    purposeOf (inferFieldMeanings jsDemo ["incidentCount"] []) "incidentCount" =
        some "identifier" ∧
    some "identifier" ≠ some "incident_metric" := by
  constructor
  · decide
  · decide

/-- C2 (amended): for any dataset and any field list containing
"incidentCount", `inferFieldMeanings` assigns it `inferredPurpose
"identifier"` — the identifier keyword "id" occurs inside "incident" and the
identifier category is the first in the chain. -/
theorem c2_amended (js : JSPrims) (data : List Record) (fields : List String)
    (h : "incidentCount" ∈ fields) :
    purposeOf (inferFieldMeanings js fields data) "incidentCount" = some "identifier" := by
  have hne : fields.isEmpty = false := by
    cases fields with
    | nil => cases h
    | cons a l => rfl
  have hid : matchesAny (jsToLower "incidentCount") identifierKeywords = true := by decide
  unfold inferFieldMeanings
  rw [hne]
  unfold purposeOf
  simp only [Bool.false_eq_true, if_false]
  rw [getKey_map_of_mem (meaningFor js data) fields "incidentCount" h]
  simp [meaningFor, hid]

/-- Witness for C2 (amended) at a concrete field list. -/
theorem c2_amended_witness :
    ("incidentCount" ∈ ["incidentCount", "status"]) ∧
      purposeOf (inferFieldMeanings jsDemo ["incidentCount", "status"] [recFeb])
        "incidentCount" = some "identifier" :=
  ⟨by decide, c2_amended jsDemo [recFeb] ["incidentCount", "status"] (by decide)⟩

/- ------------------------------------------------------------------ -/
/- C7 — the sparsity invariant.                                        -/
/- ------------------------------------------------------------------ -/

/-- C7: for every nonempty dataset and every field of the first record, the
inferred `FieldType` satisfies `sparsity = 1 - totalCount / datasetSize`
(equivalently `(datasetSize - totalCount) / datasetSize`), and the value lies
in `[0, 1]`. -/
theorem c7_sparsity (data : List Record) (f : String)
    (hd : data ≠ []) (hf : f ∈ fieldsOf data) :
    getKey (fieldTypesOf data) f = some (typeFor data f) ∧
    (typeFor data f).sparsity =
      1 - ((typeFor data f).totalCount : ℚ) / (data.length : ℚ) ∧
    0 ≤ (typeFor data f).sparsity ∧ (typeFor data f).sparsity ≤ 1 := by
  have hn : 0 < data.length := List.length_pos.2 hd
  have hnq : (0 : ℚ) < (data.length : ℚ) := by exact_mod_cast hn
  have hc : (collectVals data f).length ≤ data.length :=
    List.length_filterMap_le _ _
  have hcq : ((collectVals data f).length : ℚ) ≤ (data.length : ℚ) := by exact_mod_cast hc
  have hsp : (typeFor data f).sparsity =
      ((data.length : ℚ) - ((collectVals data f).length : ℚ)) / (data.length : ℚ) := rfl
  have htc : ((typeFor data f).totalCount : ℚ) = ((collectVals data f).length : ℚ) := rfl
  refine ⟨getKey_map_of_mem (typeFor data) (fieldsOf data) f hf, ?_, ?_, ?_⟩
  · rw [hsp, htc]
    field_simp
  · rw [hsp]
    apply div_nonneg _ (le_of_lt hnq)
    linarith
  · rw [hsp]
    rw [div_le_one hnq]
    linarith

/-- Witness for C7 at a concrete dataset. -/
theorem c7_sparsity_witness :
    (([recFeb, recJan] : List Record) ≠ [] ∧ "resolved" ∈ fieldsOf [recFeb, recJan]) ∧
    ((typeFor [recFeb, recJan] "resolved").sparsity =
      1 - ((typeFor [recFeb, recJan] "resolved").totalCount : ℚ) / 2 ∧
    0 ≤ (typeFor [recFeb, recJan] "resolved").sparsity ∧
    (typeFor [recFeb, recJan] "resolved").sparsity ≤ 1) := by
  refine ⟨⟨by decide, by decide⟩, ?_⟩
  have h := c7_sparsity [recFeb, recJan] "resolved" (by decide) (by decide)
  exact ⟨h.2.1, h.2.2⟩

/- ------------------------------------------------------------------ -/
/- C9 — fields whose values are all undefined.                         -/
/- ------------------------------------------------------------------ -/

/-- C9: a field present in the first record all of whose values are
undefined across the dataset is classified numeric (the `every` quantifier
over the empty value list holds vacuously) with `isBoolean = true`,
`uniqueCount = 0`, `totalCount = 0`, `sparsity = 1`; when it is selected for
stats (explicitly or by an empty target list) its numeric stats are all 0. -/
theorem c9_all_undefined (js : JSPrims) (data : List Record)
    (targetFields : List String) (f : String)
    (hd : data ≠ []) (hf : f ∈ fieldsOf data)
    (hnull : ∀ r ∈ data, lookupVal r f = none) :
    (typeFor data f).type = "numeric" ∧
    (typeFor data f).isBoolean = true ∧
    (typeFor data f).uniqueCount = 0 ∧
    (typeFor data f).totalCount = 0 ∧
    (typeFor data f).sparsity = 1 ∧
    ((targetFields = [] ∨ f ∈ targetFields) →
      statsFor js data targetFields f =
        some (.numeric { min := 0, max := 0, avg := 0, sum := 0, variance := 0 })) := by
  have hcv : collectVals data f = [] :=
    List.filterMap_eq_nil_iff.2 hnull
  have hn : ((data.length : ℚ)) ≠ 0 := by
    have : 0 < data.length := List.length_pos.2 hd
    exact_mod_cast Nat.pos_iff_ne_zero.1 this
  have hsel : (targetFields = [] ∨ f ∈ targetFields) →
      fieldSelected targetFields f = true := by
    rintro (h | h)
    · subst h
      simp [fieldSelected]
    · simp [fieldSelected, h]
  have hnum : fieldIsNumericVals data f = true := by
    unfold fieldIsNumericVals
    rw [hcv]
    rfl
  refine ⟨?_, ?_, ?_, ?_, ?_, ?_⟩
  · simp only [typeFor]
    rw [hnum]
    simp
  · simp only [typeFor]
    unfold fieldIsBooleanVals
    rw [hcv]
    rfl
  · simp only [typeFor]
    rw [hcv]
    rfl
  · simp only [typeFor]
    rw [hcv]
    rfl
  · simp only [typeFor]
    rw [hcv]
    simp only [List.length_nil, Nat.cast_zero, sub_zero]
    exact div_self hn
  · intro hsel'
    unfold statsFor
    rw [hnum, hsel hsel', hcv]
    rfl

/-- Witness for C9 at a concrete dataset whose field `b` has only undefined
values. -/
theorem c9_all_undefined_witness :
    (([[("a", some (Value.num 1)), ("b", none)], [("a", some (Value.num 2))]] :
        List Record) ≠ [] ∧
      "b" ∈ fieldsOf [[("a", some (Value.num 1)), ("b", none)], [("a", some (Value.num 2))]]) ∧
    ((typeFor [[("a", some (Value.num 1)), ("b", none)], [("a", some (Value.num 2))]] "b").type
        = "numeric" ∧
      (typeFor [[("a", some (Value.num 1)), ("b", none)], [("a", some (Value.num 2))]] "b").sparsity
        = 1 ∧
      statsFor jsDemo [[("a", some (Value.num 1)), ("b", none)], [("a", some (Value.num 2))]] [] "b"
        = some (.numeric { min := 0, max := 0, avg := 0, sum := 0, variance := 0 })) := by
  refine ⟨⟨by decide, by decide⟩, ?_⟩
  have h := c9_all_undefined jsDemo
    [[("a", some (Value.num 1)), ("b", none)], [("a", some (Value.num 2))]] [] "b"
    (by decide) (by decide) (by decide)
  exact ⟨h.1, h.2.2.2.2.1, h.2.2.2.2.2 (Or.inl rfl)⟩

/- ------------------------------------------------------------------ -/
/- C5 — empty or malformed plan.                                       -/
/- ------------------------------------------------------------------ -/

theorem analyze_ok (js : JSPrims) (focusAreas : List String)
    (planOpt : Option (List (String × PlanConfig))) (depth : String)
    (targetFields : List String) (data : List Record) (hd : data ≠ []) :
    analyzeDynamically js focusAreas planOpt depth targetFields (some data) =
      .ok (buildFindings js focusAreas depth targetFields data planOpt).1
        (buildFindings js focusAreas depth targetFields data planOpt).2 := by
  have hde : data.isEmpty = false := by
    cases data with
    | nil => cases hd rfl
    | cons a t => rfl
  unfold analyzeDynamically
  simp [hde]

/-- C5: for an absent plan, or a plan object with no focus-area entries, the
metric executor marks every analysis field with the typed
"Unsupported focus areas" error inside the returned metrics — no exception,
no shared ratio, and the dataset is left untouched. -/
theorem c5_empty_plan (js : JSPrims) (focusAreas : List String) (depth : String)
    (targetFields : List String) (data : List Record)
    (planOpt : Option (List (String × PlanConfig)))
    (hd : data ≠ []) (hp : planOpt = none ∨ planOpt = some []) :
    ∃ fnd fd,
      analyzeDynamically js focusAreas planOpt depth targetFields (some data) = .ok fnd fd ∧
      (∀ f ∈ analysisFieldsOf js data targetFields,
        getKey fnd.metrics.entries f =
          some (.fieldError ("Unsupported focus areas: " ++
            String.intercalate ", " focusAreas))) ∧
      fnd.metrics.ratioValue = none ∧ fd = data := by
  have hst : execStateOf js focusAreas depth targetFields data planOpt =
      { entries := emptyPlanEntries focusAreas (analysisFieldsOf js data targetFields),
        ratioValue := none, data := data } := by
    rcases hp with hp | hp <;> subst hp <;> rfl
  refine ⟨(buildFindings js focusAreas depth targetFields data planOpt).1,
          (buildFindings js focusAreas depth targetFields data planOpt).2,
          analyze_ok js focusAreas planOpt depth targetFields data hd, ?_, ?_, ?_⟩
  · intro f hf
    have hm : (buildFindings js focusAreas depth targetFields data planOpt).1.metrics.entries =
        (execStateOf js focusAreas depth targetFields data planOpt).entries := rfl
    rw [hm, hst]
    exact getKey_foldl_upsert _ _ [] f (Or.inl hf)
  · have hm : (buildFindings js focusAreas depth targetFields data planOpt).1.metrics.ratioValue =
        (execStateOf js focusAreas depth targetFields data planOpt).ratioValue := rfl
    rw [hm, hst]
  · have hm : (buildFindings js focusAreas depth targetFields data planOpt).2 =
        (execStateOf js focusAreas depth targetFields data planOpt).data := rfl
    rw [hm, hst]

/-- Witness for C5 at a concrete dataset and the empty plan. -/
theorem c5_empty_plan_witness :
    (([recAB] : List Record) ≠ []) ∧
    (∃ fnd fd,
      analyzeDynamically jsDemo ["trend", "total"] (some []) "detailed" [] (some [recAB]) =
        .ok fnd fd ∧
      (∀ f ∈ analysisFieldsOf jsDemo [recAB] [],
        getKey fnd.metrics.entries f =
          some (.fieldError ("Unsupported focus areas: " ++
            String.intercalate ", " ["trend", "total"]))) ∧
      fnd.metrics.ratioValue = none ∧ fd = [recAB]) :=
  ⟨by decide, c5_empty_plan jsDemo ["trend", "total"] "detailed" [] [recAB] (some [])
    (by decide) (Or.inr rfl)⟩

/- ------------------------------------------------------------------ -/
/- C8 — correlation symmetry and self-correlation.                     -/
/- ------------------------------------------------------------------ -/

theorem sum_map_sub_sq (l : List ℚ) (c : ℚ) :
    (l.map (fun v => (v - c) ^ 2)).sum =
      (l.map (fun v => v * v)).sum - 2 * c * l.sum + (l.length : ℚ) * c ^ 2 := by
  induction l with
  | nil => simp
  | cons a t ih =>
    simp only [List.map_cons, List.sum_cons, List.length_cons, ih]
    push_cast
    ring

theorem variance_mul_sq (l : List ℚ) (hl : l ≠ []) :
    variance l * (l.length : ℚ) ^ 2 =
      (l.length : ℚ) * (l.map (fun v => v * v)).sum - l.sum * l.sum := by
  have hn : ((l.length : ℚ)) ≠ 0 := by
    have : 0 < l.length := List.length_pos.2 hl
    exact_mod_cast Nat.pos_iff_ne_zero.1 this
  have h1 : ¬ l.length < 1 := by
    have : 0 < l.length := List.length_pos.2 hl
    omega
  unfold variance
  rw [if_neg h1]
  simp only []
  rw [sum_map_sub_sq]
  field_simp
  ring

theorem variance_nonneg (l : List ℚ) : 0 ≤ variance l := by
  unfold variance
  split
  · exact le_refl 0
  · apply div_nonneg
    · apply List.sum_nonneg
      intro x hx
      obtain ⟨v, _, hv⟩ := List.mem_map.1 hx
      rw [← hv]
      positivity
    · exact_mod_cast Nat.zero_le _

/-- C8: `correlation` is symmetric, and `correlation(x, x) = 1` for every
vector of length at least 2 with nonzero variance. -/
theorem c8_correlation_symm_self (x : List ℚ) :
    (∀ y : List ℚ, correlation x y = correlation y x) ∧
    (2 ≤ x.length → variance x ≠ 0 → correlation x x = 1) := by
  constructor
  · intro y
    by_cases hlen : x.length = y.length
    · have hnum : corrNum x y = corrNum y x := by
        unfold corrNum
        rw [List.zipWith_comm_of_comm (fun a b => a * b) mul_comm, hlen]
        ring
      have hden : corrDen x y = corrDen y x := by
        unfold corrDen
        rw [hlen]
        ring
      unfold correlation
      rw [hnum, hden, hlen]
    · unfold correlation
      rw [if_pos (Or.inl hlen), if_pos (Or.inl (Ne.symm hlen))]
  · intro h2 hv
    have hx : x ≠ [] := by
      intro he
      rw [he] at h2
      simp at h2
    have hnp : (0 : ℚ) < (x.length : ℚ) := by
      have : 0 < x.length := by omega
      exact_mod_cast this
    have hqv : corrNum x x =
        variance x * (x.length : ℚ) ^ 2 := by
      have hself : corrNum x x =
          (x.length : ℚ) * (x.map (fun v => v * v)).sum - x.sum * x.sum := by
        unfold corrNum
        rw [List.zipWith_same]
      rw [hself, variance_mul_sq x hx]
    have hq0 : 0 < corrNum x x := by
      rw [hqv]
      have hvn : 0 < variance x := lt_of_le_of_ne (variance_nonneg x) (Ne.symm hv)
      positivity
    have hden : corrDen x x = corrNum x x * corrNum x x := by
      unfold corrDen
      have hself : corrNum x x =
          (x.length : ℚ) * (x.map (fun v => v * v)).sum - x.sum * x.sum := by
        unfold corrNum
        rw [List.zipWith_same]
      rw [hself]
    have hg : ¬(x.length ≠ x.length ∨ x.length < 2) := by
      push_neg
      exact ⟨rfl, by omega⟩
    have hsq : Real.sqrt ((corrDen x x : ℚ) : ℝ) = ((corrNum x x : ℚ) : ℝ) := by
      rw [hden]
      push_cast
      exact Real.sqrt_mul_self (by exact_mod_cast le_of_lt hq0)
    have hr0 : (0 : ℝ) < ((corrNum x x : ℚ) : ℝ) := by exact_mod_cast hq0
    unfold correlation
    rw [if_neg hg, hsq, if_neg (ne_of_gt hr0)]
    exact div_self (ne_of_gt hr0)

/-- Witness for C8 at concrete vectors. -/
theorem c8_correlation_witness :
    correlation [1, 2, 3] [5, 1, 4] = correlation [5, 1, 4] [1, 2, 3] ∧
    (2 ≤ ([1, 2, 3] : List ℚ).length ∧ variance [1, 2, 3] ≠ 0) ∧
    correlation [1, 2, 3] [1, 2, 3] = 1 :=
  ⟨(c8_correlation_symm_self [1, 2, 3]).1 [5, 1, 4],
   ⟨by decide, by with_unfolding_all decide⟩,
   (c8_correlation_symm_self [1, 2, 3]).2 (by decide) (by with_unfolding_all decide)⟩

/- ------------------------------------------------------------------ -/
/- C10 — no relationship for fields sparse on different records.       -/
/- ------------------------------------------------------------------ -/

theorem correlation_length_ne (x y : List ℚ) (h : x.length ≠ y.length) :
    correlation x y = 0 := by
  unfold correlation
  rw [if_pos (Or.inl h)]

/-- C10: two numeric fields whose non-null value counts differ never produce
a correlation relationship — each field's values are filtered independently
and `correlation` returns 0 on vectors of unequal length. -/
theorem c10_no_rel_for_sparse_pair (data : List Record) (fields : List String)
    (ftypes : List (String × FieldType)) (f g : String)
    (hlen : (numValsOf data f).length ≠ (numValsOf data g).length) :
    ∀ r ∈ relationships data fields ftypes,
      ¬((r.field1 = f ∧ r.field2 = g) ∨ (r.field1 = g ∧ r.field2 = f)) := by
  intro r hr hmatch
  unfold relationships at hr
  obtain ⟨p, hp, he⟩ := List.mem_filterMap.1 hr
  unfold relEmit at he
  by_cases hc1 : 1 < (numValsOf data p.1).length ∧ 1 < (numValsOf data p.2).length
  · rw [if_pos hc1] at he
    by_cases hc2 : (0.5 : ℝ) < |correlation (numValsOf data p.1) (numValsOf data p.2)|
    · rw [if_pos hc2] at he
      injection he with he
      subst he
      rcases hmatch with ⟨h1, h2⟩ | ⟨h1, h2⟩
      · have h1' : p.1 = f := h1
        have h2' : p.2 = g := h2
        rw [h1', h2', correlation_length_ne _ _ hlen, abs_zero] at hc2
        norm_num at hc2
      · have h1' : p.1 = g := h1
        have h2' : p.2 = f := h2
        rw [h1', h2', correlation_length_ne _ _ (Ne.symm hlen), abs_zero] at hc2
        norm_num at hc2
    · rw [if_neg hc2] at he
      cases he
  · rw [if_neg hc1] at he
    cases he

/-- Witness for C10: fields `a` (3 values) and `b` (2 values, perfectly
co-varying with `a` where both are present) never appear as a relationship
pair. -/
theorem c10_no_rel_for_sparse_pair_witness :
    ((numValsOf [[("a", some (Value.num 1)), ("b", some (Value.num 2))],
        [("a", some (Value.num 2)), ("b", some (Value.num 4))],
        [("a", some (Value.num 3))]] "a").length ≠
      (numValsOf [[("a", some (Value.num 1)), ("b", some (Value.num 2))],
        [("a", some (Value.num 2)), ("b", some (Value.num 4))],
        [("a", some (Value.num 3))]] "b").length) ∧
    (∀ r ∈ relationships [[("a", some (Value.num 1)), ("b", some (Value.num 2))],
        [("a", some (Value.num 2)), ("b", some (Value.num 4))],
        [("a", some (Value.num 3))]]
        (fieldsOf [[("a", some (Value.num 1)), ("b", some (Value.num 2))],
          [("a", some (Value.num 2)), ("b", some (Value.num 4))],
          [("a", some (Value.num 3))]])
        (fieldTypesOf [[("a", some (Value.num 1)), ("b", some (Value.num 2))],
          [("a", some (Value.num 2)), ("b", some (Value.num 4))],
          [("a", some (Value.num 3))]]),
      ¬((r.field1 = "a" ∧ r.field2 = "b") ∨ (r.field1 = "b" ∧ r.field2 = "a"))) :=
  ⟨by decide,
   c10_no_rel_for_sparse_pair _ _ _ "a" "b" (by decide)⟩

/- ------------------------------------------------------------------ -/
/- C3 — the shared `performance_ratio` metric.                         -/
/- ------------------------------------------------------------------ -/

theorem getKey_filterMap_graph {β : Type} (g : String → Option β) (l : List String)
    (k : String) :
    getKey (l.filterMap (fun f => (g f).map (fun e => (f, e)))) k =
      if k ∈ l then g k else none := by
  induction l with
  | nil => simp [getKey]
  | cons a t ih =>
    cases hg : g a with
    | none =>
      rw [List.filterMap_cons]
      simp only [hg, Option.map_none']
      rw [ih]
      by_cases ha : a = k
      · subst ha
        rw [if_pos (List.mem_cons_self a t)]
        by_cases hat : a ∈ t
        · rw [if_pos hat]
        · rw [if_neg hat, hg]
      · by_cases hkt : k ∈ t
        · rw [if_pos hkt, if_pos (List.mem_cons_of_mem a hkt)]
        · have hnm : ¬ k ∈ a :: t := by
            intro hm
            rcases List.mem_cons.1 hm with h | h
            · exact ha h.symm
            · exact hkt h
          rw [if_neg hkt, if_neg hnm]
    | some b =>
      rw [List.filterMap_cons]
      simp only [hg, Option.map_some']
      rw [getKey]
      by_cases ha : a = k
      · rw [if_pos ha]
        subst ha
        rw [if_pos (List.mem_cons_self a t), hg]
      · rw [if_neg ha, ih]
        by_cases hkt : k ∈ t
        · rw [if_pos hkt, if_pos (List.mem_cons_of_mem a hkt)]
        · have hnm : ¬ k ∈ a :: t := by
            intro hm
            rcases List.mem_cons.1 hm with h | h
            · exact ha h.symm
            · exact hkt h
          rw [if_neg hkt, if_neg hnm]

theorem getKey_fieldStats_eq (js : JSPrims) (data : List Record) (tf : List String)
    (f : String) :
    getKey (fieldStatsOf js data tf) f =
      if f ∈ fieldsOf data then statsFor js data tf f else none := by
  unfold fieldStatsOf
  exact getKey_filterMap_graph (statsFor js data tf) (fieldsOf data) f

theorem typeFor_type_of_numeric (data : List Record) (f : String)
    (h : fieldIsNumericVals data f = true) : (typeFor data f).type = "numeric" := by
  simp only [typeFor]
  rw [h]
  simp

theorem typeIsNumeric_of_statsNumeric (js : JSPrims) (data : List Record)
    (tf : List String) (f : String) (ns : NumStats)
    (hf : f ∈ fieldsOf data)
    (h : statsFor js data tf f = some (.numeric ns)) :
    typeIsNumeric (fieldTypesOf data) f = true := by
  have hnum : fieldIsNumericVals data f = true := by
    by_cases hb : (fieldIsNumericVals data f && fieldSelected tf f) = true
    · have hb2 := hb
      rw [Bool.and_eq_true] at hb2
      exact hb2.1
    · exfalso
      unfold statsFor at h
      rw [if_neg hb] at h
      by_cases ht : fieldIsTemporalName f = true
      · rw [if_pos ht] at h
        cases h
      · rw [if_neg ht] at h
        injection h with h2
        cases h2
  unfold typeIsNumeric
  unfold fieldTypesOf
  rw [getKey_map_of_mem _ _ _ hf]
  simp [typeFor_type_of_numeric data f hnum]

theorem getSumOf_some (fstats : List (String × StatsEntry)) (f : String) (s0 : ℚ)
    (h : getSumOf fstats f = some s0) :
    ∃ ns : NumStats, getKey fstats f = some (.numeric ns) ∧ ns.sum = s0 := by
  unfold getSumOf at h
  cases hk : getKey fstats f with
  | none => rw [hk] at h; cases h
  | some e =>
    rw [hk] at h
    cases e with
    | numeric ns =>
      refine ⟨ns, rfl, ?_⟩
      injection h
    | dist d m => cases h

theorem foldl_pres_of_step {σ α : Type} (P : σ → Prop) (step : σ → α → σ) (l : List α)
    (hstep : ∀ s a, P s → P (step s a)) (s : σ) (hs : P s) : P (l.foldl step s) := by
  induction l generalizing s with
  | nil => exact hs
  | cons a t ih => exact ih (step s a) (hstep s a hs)

theorem foldl_estab {σ α : Type} (P : σ → Prop) (step : σ → α → σ) (l : List α) (a : α)
    (ha : a ∈ l) (hest : ∀ s, P (step s a)) (hstep : ∀ s b, P s → P (step s b)) (s : σ) :
    P (l.foldl step s) := by
  obtain ⟨l1, l2, rfl⟩ := List.append_of_mem ha
  rw [List.foldl_append, List.foldl_cons]
  exact foldl_pres_of_step P step l2 hstep _ (hest _)

theorem execMetricStep_ratio_none (js : JSPrims) (depth : String) (afs : List String)
    (fstats : List (String × StatsEntry)) (f : String) (cfg : PlanConfig)
    (st : ExecState) (metric : String)
    (hc : ratioCond afs fstats = false) :
    (execMetricStep js depth afs fstats f cfg st metric).ratioValue = st.ratioValue := by
  unfold execMetricStep
  repeat' split
  all_goals simp_all

theorem execMetricStep_ratio_sets (js : JSPrims) (depth : String) (afs : List String)
    (fstats : List (String × StatsEntry)) (f : String) (cfg : PlanConfig)
    (st : ExecState)
    (hc : ratioCond afs fstats = true) :
    (execMetricStep js depth afs fstats f cfg st "ratio").ratioValue =
      some (ratioValOf afs fstats) := by
  simp [execMetricStep, hc]

theorem execMetricStep_ratio_keep (js : JSPrims) (depth : String) (afs : List String)
    (fstats : List (String × StatsEntry)) (f : String) (cfg : PlanConfig)
    (st : ExecState) (metric : String)
    (hst : st.ratioValue = some (ratioValOf afs fstats)) :
    (execMetricStep js depth afs fstats f cfg st metric).ratioValue =
      some (ratioValOf afs fstats) := by
  unfold execMetricStep
  repeat' split
  all_goals simp_all

theorem execField_ratio_none (js : JSPrims) (depth : String) (afs : List String)
    (ftypes : List (String × FieldType)) (fstats : List (String × StatsEntry))
    (cfg : PlanConfig) (st : ExecState) (f : String)
    (hc : ratioCond afs fstats = false) :
    (execField js depth afs ftypes fstats cfg st f).ratioValue = st.ratioValue := by
  unfold execField
  split
  · have hfold : ∀ (l : List String) (s : ExecState),
        (l.foldl (execMetricStep js depth afs fstats f cfg) s).ratioValue = s.ratioValue := by
      intro l
      induction l with
      | nil => intro s; rfl
      | cons m t ih =>
        intro s
        rw [List.foldl_cons, ih, execMetricStep_ratio_none js depth afs fstats f cfg s m hc]
    rw [hfold]
  · rfl

theorem execField_ratio_keep (js : JSPrims) (depth : String) (afs : List String)
    (ftypes : List (String × FieldType)) (fstats : List (String × StatsEntry))
    (cfg : PlanConfig) (st : ExecState) (f : String)
    (hst : st.ratioValue = some (ratioValOf afs fstats)) :
    (execField js depth afs ftypes fstats cfg st f).ratioValue =
      some (ratioValOf afs fstats) := by
  unfold execField
  split
  · apply foldl_pres_of_step (fun s : ExecState => s.ratioValue = some (ratioValOf afs fstats))
    · exact fun s a hs => execMetricStep_ratio_keep js depth afs fstats f cfg s a hs
    · exact hst
  · exact hst

theorem execField_ratio_estab (js : JSPrims) (depth : String) (afs : List String)
    (ftypes : List (String × FieldType)) (fstats : List (String × StatsEntry))
    (cfg : PlanConfig) (st : ExecState) (f : String)
    (hc : ratioCond afs fstats = true)
    (hnum : typeIsNumeric ftypes f = true) (hr : "ratio" ∈ cfg.metrics) :
    (execField js depth afs ftypes fstats cfg st f).ratioValue =
      some (ratioValOf afs fstats) := by
  unfold execField
  rw [if_pos hnum]
  apply foldl_estab (fun s : ExecState => s.ratioValue = some (ratioValOf afs fstats)) _ _ "ratio" hr
  · exact fun s => execMetricStep_ratio_sets js depth afs fstats f cfg s hc
  · exact fun s b hs => execMetricStep_ratio_keep js depth afs fstats f cfg s b hs

theorem execPlan_ratio_none (js : JSPrims) (depth : String) (afs : List String)
    (ftypes : List (String × FieldType)) (fstats : List (String × StatsEntry))
    (st : ExecState) (p : List (String × PlanConfig))
    (hc : ratioCond afs fstats = false) :
    (execPlan js depth afs ftypes fstats st p).ratioValue = st.ratioValue := by
  unfold execPlan
  induction p generalizing st with
  | nil => rfl
  | cons e t ih =>
    rw [List.foldl_cons, ih]
    have hfold : ∀ (l : List String) (s : ExecState),
        (l.foldl (execField js depth afs ftypes fstats e.2) s).ratioValue = s.ratioValue := by
      intro l
      induction l with
      | nil => intro s; rfl
      | cons a t2 ih2 =>
        intro s
        rw [List.foldl_cons, ih2, execField_ratio_none js depth afs ftypes fstats e.2 s a hc]
    rw [hfold]

theorem execPlan_ratio_estab (js : JSPrims) (depth : String) (afs : List String)
    (ftypes : List (String × FieldType)) (fstats : List (String × StatsEntry))
    (st : ExecState) (p : List (String × PlanConfig)) (area : String) (cfg : PlanConfig)
    (f0 : String)
    (hc : ratioCond afs fstats = true)
    (hmem : (area, cfg) ∈ p) (hr : "ratio" ∈ cfg.metrics)
    (hf0 : f0 ∈ afs) (hnum : typeIsNumeric ftypes f0 = true) :
    (execPlan js depth afs ftypes fstats st p).ratioValue =
      some (ratioValOf afs fstats) := by
  unfold execPlan
  apply foldl_estab (fun s : ExecState => s.ratioValue = some (ratioValOf afs fstats)) _ _ (area, cfg) hmem
  · intro s
    apply foldl_estab (fun s2 : ExecState => s2.ratioValue = some (ratioValOf afs fstats)) _ _ f0 hf0
    · exact fun s2 => execField_ratio_estab js depth afs ftypes fstats cfg s2 f0 hc hnum hr
    · exact fun s2 b hs => execField_ratio_keep js depth afs ftypes fstats cfg s2 b hs
  · intro s entry hs
    apply foldl_pres_of_step (fun s2 : ExecState => s2.ratioValue = some (ratioValOf afs fstats))
    · exact fun s2 b hs2 => execField_ratio_keep js depth afs ftypes fstats entry.2 s2 b hs2
    · exact hs

theorem execStateOf_some (js : JSPrims) (focusAreas : List String) (depth : String)
    (targetFields : List String) (data : List Record) (p : List (String × PlanConfig))
    (hp : p ≠ []) :
    execStateOf js focusAreas depth targetFields data (some p) =
      execPlan js depth (analysisFieldsOf js data targetFields) (fieldTypesOf data)
        (fieldStatsOf js data targetFields) ⟨[], none, data⟩ p := by
  have hpe : p.isEmpty = false := by
    cases p with
    | nil => cases hp rfl
    | cons a t => rfl
  unfold execStateOf
  simp [hpe]

/-- C3 (amended): when the plan requests the `ratio` metric and at least two
analysis fields are selected, the executor writes the single shared
`performance_ratio` value `sum(field0) / sum(field1)` — but only when both
sums are defined and nonzero; when either sum is zero or undefined the
assignment is skipped entirely and no `performance_ratio` key exists (the
result is absent, not 0). -/
theorem c3_ratio (js : JSPrims) (focusAreas : List String) (depth : String)
    (targetFields : List String) (data : List Record)
    (p : List (String × PlanConfig)) (area : String) (cfg : PlanConfig)
    (f0 f1 : String) (rest : List String)
    (hd : data ≠ []) (hpne : p ≠ [])
    (hmem : (area, cfg) ∈ p) (hr : "ratio" ∈ cfg.metrics)
    (hafs : analysisFieldsOf js data targetFields = f0 :: f1 :: rest) :
    (∀ s0 s1 : ℚ,
      getSumOf (fieldStatsOf js data targetFields) f0 = some s0 → s0 ≠ 0 →
      getSumOf (fieldStatsOf js data targetFields) f1 = some s1 → s1 ≠ 0 →
      ∃ fnd fd,
        analyzeDynamically js focusAreas (some p) depth targetFields (some data) =
          .ok fnd fd ∧
        fnd.metrics.ratioValue = some (s0 / s1)) ∧
    ((getSumOf (fieldStatsOf js data targetFields) f0 = none ∨
      getSumOf (fieldStatsOf js data targetFields) f0 = some 0 ∨
      getSumOf (fieldStatsOf js data targetFields) f1 = none ∨
      getSumOf (fieldStatsOf js data targetFields) f1 = some 0) →
      ∃ fnd fd,
        analyzeDynamically js focusAreas (some p) depth targetFields (some data) =
          .ok fnd fd ∧
        fnd.metrics.ratioValue = none) := by
  have hms : ∀ planOpt,
      (buildFindings js focusAreas depth targetFields data planOpt).1.metrics.ratioValue =
        (execStateOf js focusAreas depth targetFields data planOpt).ratioValue :=
    fun _ => rfl
  constructor
  · intro s0 s1 h0 hs0 h1 hs1
    refine ⟨_, _, analyze_ok js focusAreas (some p) depth targetFields data hd, ?_⟩
    rw [hms, execStateOf_some js focusAreas depth targetFields data p hpne, hafs]
    have hc : ratioCond (f0 :: f1 :: rest) (fieldStatsOf js data targetFields) = true := by
      show (truthyQ (getSumOf (fieldStatsOf js data targetFields) f0) &&
        truthyQ (getSumOf (fieldStatsOf js data targetFields) f1)) = true
      rw [h0, h1]
      simp [truthyQ, hs0, hs1]
    have hv : ratioValOf (f0 :: f1 :: rest) (fieldStatsOf js data targetFields) = s0 / s1 := by
      show orZero (((getSumOf (fieldStatsOf js data targetFields) f0).getD 0) /
        ((getSumOf (fieldStatsOf js data targetFields) f1).getD 0)) = s0 / s1
      rw [h0, h1]
      simp only [Option.getD_some]
      rw [orZero, if_neg (div_ne_zero hs0 hs1)]
    obtain ⟨ns, hk, hns⟩ := getSumOf_some _ _ _ h0
    rw [getKey_fieldStats_eq] at hk
    by_cases hf : f0 ∈ fieldsOf data
    · rw [if_pos hf] at hk
      have hnum0 : typeIsNumeric (fieldTypesOf data) f0 = true :=
        typeIsNumeric_of_statsNumeric js data targetFields f0 ns hf hk
      rw [execPlan_ratio_estab js depth (f0 :: f1 :: rest) (fieldTypesOf data)
        (fieldStatsOf js data targetFields) ⟨[], none, data⟩ p area cfg f0 hc hmem hr
        (List.mem_cons_self f0 (f1 :: rest)) hnum0, hv]
    · rw [if_neg hf] at hk
      cases hk
  · intro hfals
    refine ⟨_, _, analyze_ok js focusAreas (some p) depth targetFields data hd, ?_⟩
    rw [hms, execStateOf_some js focusAreas depth targetFields data p hpne, hafs]
    have hc : ratioCond (f0 :: f1 :: rest) (fieldStatsOf js data targetFields) = false := by
      show (truthyQ (getSumOf (fieldStatsOf js data targetFields) f0) &&
        truthyQ (getSumOf (fieldStatsOf js data targetFields) f1)) = false
      rcases hfals with h | h | h | h <;> rw [h] <;> simp [truthyQ]
    rw [execPlan_ratio_none js depth (f0 :: f1 :: rest) (fieldTypesOf data)
      (fieldStatsOf js data targetFields) ⟨[], none, data⟩ p hc]

/-- C3 counterexample: with two selected numeric fields `a = 5`, `b = 0` and a
plan requesting `ratio`, the second sum is zero — the claim demands a
`performance_ratio` of 0, but the code writes no `performance_ratio` at all
(the key is absent). -/
theorem c3_counterexample :
    getSumOf (fieldStatsOf jsDemo [recAB0] ["a", "b"]) "b" = some 0 ∧
    analysisFieldsOf jsDemo [recAB0] ["a", "b"] = ["a", "b"] ∧
    (analyzeDynamically jsDemo ["performance"] (some ratioPlan) "detailed" ["a", "b"]
      (some [recAB0])).metricsOf.map (fun m => m.ratioValue) = some none ∧
    (some none : Option (Option ℚ)) ≠ some (some 0) := by
  refine ⟨?_, ?_, ?_, by decide⟩
  · with_unfolding_all decide
  · with_unfolding_all decide
  · with_unfolding_all decide

/-- Witness for C3 (amended) at a concrete dataset with sums 6 and 3. -/
theorem c3_ratio_witness :
    (([recAB] : List Record) ≠ [] ∧ ratioPlan ≠ [] ∧
      ("perf", (⟨["ratio"], none⟩ : PlanConfig)) ∈ ratioPlan ∧
      "ratio" ∈ (⟨["ratio"], none⟩ : PlanConfig).metrics ∧
      analysisFieldsOf jsDemo [recAB] ["a", "b"] = ["a", "b"] ∧
      getSumOf (fieldStatsOf jsDemo [recAB] ["a", "b"]) "a" = some 6 ∧
      getSumOf (fieldStatsOf jsDemo [recAB] ["a", "b"]) "b" = some 3) ∧
    (∃ fnd fd,
      analyzeDynamically jsDemo ["performance"] (some ratioPlan) "detailed" ["a", "b"]
        (some [recAB]) = .ok fnd fd ∧
      fnd.metrics.ratioValue = some (6 / 3)) := by
  refine ⟨⟨by decide, by decide, by decide, by decide, by with_unfolding_all decide,
    by with_unfolding_all decide, by with_unfolding_all decide⟩, ?_⟩
  exact (c3_ratio jsDemo ["performance"] "detailed" ["a", "b"] [recAB] ratioPlan "perf"
    ⟨["ratio"], none⟩ "a" "b" [] (by decide) (by decide) (by decide) (by decide)
    (by with_unfolding_all decide)).1 6 3 (by with_unfolding_all decide) (by norm_num)
    (by with_unfolding_all decide) (by norm_num)

/- ------------------------------------------------------------------ -/
/- C1 — analyze mutates the dataset (code bug).                        -/
/- ------------------------------------------------------------------ -/

/-- C1 (code bug): on a dataset whose record order disagrees with the date
order, a `time_series` metric sorts the module-level dataset array in place
(`data.sort(...)`, agent.ts line 549): after the call the dataset's record
order has changed, and a second call on the now-mutated dataset returns a
different `timeSeries` component than the first call did — `analyze` is
neither side-effect-free over the dataset nor idempotent.  The spec's
read-only dataset and idempotence requirements state the intent; the in-place
`Array.prototype.sort` is the slip. -/
theorem c1_dataset_mutated :
    (analyzeDynamically jsDemo ["trend"] (some trendPlan) "detailed" ["resolved"]
        (some [recFeb, recJan])).finalData = some [recJan, recFeb] ∧
    ([recJan, recFeb] : List Record) ≠ [recFeb, recJan] ∧
    (analyzeDynamically jsDemo ["trend"] (some trendPlan) "detailed" ["resolved"]
        (some [recFeb, recJan])).tsOf ≠
      (analyzeDynamically jsDemo ["trend"] (some trendPlan) "detailed" ["resolved"]
        (some [recJan, recFeb])).tsOf := by
  refine ⟨?_, by decide, ?_⟩
  · with_unfolding_all decide
  · intro h
    have h2 : decide ((analyzeDynamically jsDemo ["trend"] (some trendPlan) "detailed"
        ["resolved"] (some [recFeb, recJan])).tsOf =
      (analyzeDynamically jsDemo ["trend"] (some trendPlan) "detailed" ["resolved"]
        (some [recJan, recFeb])).tsOf) = false := by with_unfolding_all decide
    rw [decide_eq_false_iff_not] at h2
    exact h2 h

/- ------------------------------------------------------------------ -/
/- C4 — the anomaly threshold and severity.                            -/
/- ------------------------------------------------------------------ -/

theorem mem_anomalyAt (js : JSPrims) (f : String) (avg var : ℚ) (i : ℕ)
    (row : Record) (a : Anomaly) :
    a ∈ anomalyAt js f avg var i row ↔
      anomalyFlagged js f avg var row = true ∧
      a = { field := f, record := i, value := lookupVal row f, type := "outlier_high",
            severity :=
              if 0 < anomalyThreshold avg var then
                ((((lookupVal row f).bind (jsNumber js)).getD 0 : ℚ) -
                  anomalyThreshold avg var) / anomalyThreshold avg var
              else 0 } := by
  unfold anomalyAt
  by_cases hfl : anomalyFlagged js f avg var row = true
  · rw [if_pos hfl]
    simp [hfl]
  · rw [if_neg hfl]
    simp [hfl]

theorem field_of_mem_anomalyAt (js : JSPrims) (f : String) (avg var : ℚ) (i : ℕ)
    (row : Record) (a : Anomaly) (h : a ∈ anomalyAt js f avg var i row) :
    a.field = f ∧ a.record = i := by
  obtain ⟨_, hae⟩ := (mem_anomalyAt js f avg var i row a).1 h
  rw [hae]
  exact ⟨rfl, rfl⟩

theorem mem_anomaliesFrom (js : JSPrims) (f : String) (avg var : ℚ)
    (l : List Record) (i0 : ℕ) (a : Anomaly) :
    a ∈ anomaliesFrom js f avg var i0 l ↔
      ∃ j r, l.get? j = some r ∧ a ∈ anomalyAt js f avg var (i0 + j) r := by
  induction l generalizing i0 with
  | nil =>
    constructor
    · intro h
      cases h
    · rintro ⟨j, r, hg, _⟩
      cases j <;> cases hg
  | cons row rest ih =>
    rw [show anomaliesFrom js f avg var i0 (row :: rest) =
      anomalyAt js f avg var i0 row ++ anomaliesFrom js f avg var (i0 + 1) rest from rfl]
    constructor
    · intro ha
      rcases List.mem_append.1 ha with h | h
      · exact ⟨0, row, rfl, by simpa using h⟩
      · obtain ⟨j, r, hg, hmem⟩ := (ih (i0 + 1)).1 h
        refine ⟨j + 1, r, by simpa using hg, ?_⟩
        have he : i0 + 1 + j = i0 + (j + 1) := by omega
        rwa [he] at hmem
    · rintro ⟨j, r, hg, hmem⟩
      cases j with
      | zero =>
        apply List.mem_append.2
        left
        have hr : row = r := by
          injection hg
        rw [← hr] at hmem
        simpa using hmem
      | succ j =>
        apply List.mem_append.2
        right
        apply (ih (i0 + 1)).2
        refine ⟨j, r, by simpa using hg, ?_⟩
        have he : i0 + (j + 1) = i0 + 1 + j := by omega
        rwa [he] at hmem

theorem anomalyFlagged_iff (js : JSPrims) (f : String) (avg var : ℚ) (row : Record)
    (hvar : 0 ≤ var)
    (hstr : ∀ t : String, lookupVal row f ≠ some (.str t)) :
    anomalyFlagged js f avg var row = true ↔
      ∃ q : ℚ, lookupVal row f = some (.num q) ∧
        anomalyThreshold avg var < (q : ℝ) := by
  unfold anomalyFlagged jsGTReal
  cases hv : lookupVal row f with
  | none => simp
  | some w =>
    cases w with
    | num q =>
      simp only [jsNumber, Bool.and_eq_true, decide_eq_true_eq]
      constructor
      · intro h
        exact ⟨q, rfl, h.2⟩
      · rintro ⟨q', hq, h⟩
        injection hq with hq2
        injection hq2 with hq3
        exact ⟨hvar, hq3 ▸ h⟩
    | str t => exact absurd hv (hstr t)

theorem mem_anomalies_iff_field (js : JSPrims) (data : List Record)
    (fstats : List (String × StatsEntry)) (f : String) (s : NumStats)
    (hnd : (fstats.map Prod.fst).Nodup)
    (hlk : getKey fstats f = some (.numeric s)) (a : Anomaly) :
    (a ∈ anomalies js data fstats ∧ a.field = f) ↔
      a ∈ anomaliesFrom js f s.avg s.variance 0 data := by
  constructor
  · rintro ⟨ha, haf⟩
    unfold anomalies at ha
    obtain ⟨e, he, hmem⟩ := List.mem_flatMap.1 ha
    obtain ⟨k, v⟩ := e
    cases v with
    | numeric s2 =>
      have hak : a.field = k := by
        obtain ⟨j, r, hg, hat⟩ := (mem_anomaliesFrom js k s2.avg s2.variance data 0 a).1 hmem
        exact (field_of_mem_anomalyAt js k s2.avg s2.variance (0 + j) r a hat).1
      have hkf : k = f := by rw [← hak, haf]
      subst hkf
      have hgk : getKey fstats k = some (.numeric s2) :=
        getKey_of_mem_nodup fstats k (.numeric s2) hnd he
      rw [hlk] at hgk
      injection hgk with h2
      injection h2 with h3
      rw [h3]
      exact hmem
    | dist d m => cases hmem
  · intro hmem
    have hfmem : (f, StatsEntry.numeric s) ∈ fstats := getKey_mem fstats f _ hlk
    refine ⟨?_, ?_⟩
    · unfold anomalies
      apply List.mem_flatMap.2
      exact ⟨(f, .numeric s), hfmem, hmem⟩
    · obtain ⟨j, r, hg, hat⟩ := (mem_anomaliesFrom js f s.avg s.variance data 0 a).1 hmem
      exact (field_of_mem_anomalyAt js f s.avg s.variance (0 + j) r a hat).1

/-- C4: for a numeric field `f` with computed stats (and all of whose present
values are numbers, as numeric classification guarantees), an anomaly
`{field := f, record := i, type := "outlier_high"}` is emitted iff record
`i`'s value `v` satisfies `v > avg + 2 * sqrt(variance)` — strict inequality,
so a value equal to the threshold is not flagged — and every anomaly of field
`f` carries `severity = (v - threshold) / threshold` when the threshold is
positive and 0 otherwise. -/
theorem c4_anomaly_threshold (js : JSPrims) (data : List Record)
    (fstats : List (String × StatsEntry)) (f : String) (s : NumStats)
    (hnd : (fstats.map Prod.fst).Nodup)
    (hlk : getKey fstats f = some (.numeric s))
    (hstr : ∀ r ∈ data, ∀ t : String, lookupVal r f ≠ some (.str t))
    (hvar : 0 ≤ s.variance) (i : ℕ) :
    ((∃ a ∈ anomalies js data fstats,
        a.field = f ∧ a.record = i ∧ a.type = "outlier_high") ↔
      (∃ r q, data.get? i = some r ∧ lookupVal r f = some (.num q) ∧
        (s.avg : ℝ) + 2 * Real.sqrt ((s.variance : ℚ) : ℝ) < (q : ℝ))) ∧
    (∀ a ∈ anomalies js data fstats, a.field = f →
      ∃ q : ℚ, a.value = some (.num q) ∧
        a.severity =
          if 0 < (s.avg : ℝ) + 2 * Real.sqrt ((s.variance : ℚ) : ℝ) then
            ((q : ℝ) - ((s.avg : ℝ) + 2 * Real.sqrt ((s.variance : ℚ) : ℝ))) /
              ((s.avg : ℝ) + 2 * Real.sqrt ((s.variance : ℚ) : ℝ))
          else 0) := by
  have hthr : anomalyThreshold s.avg s.variance =
      (s.avg : ℝ) + 2 * Real.sqrt ((s.variance : ℚ) : ℝ) := rfl
  constructor
  · constructor
    · rintro ⟨a, ha, haf, har, _⟩
      have hm := (mem_anomalies_iff_field js data fstats f s hnd hlk a).1 ⟨ha, haf⟩
      obtain ⟨j, r, hg, hmem⟩ := (mem_anomaliesFrom js f s.avg s.variance data 0 a).1 hm
      have hrec : a.record = 0 + j :=
        (field_of_mem_anomalyAt js f s.avg s.variance (0 + j) r a hmem).2
      have hj : j = i := by omega
      subst hj
      have hflag : anomalyFlagged js f s.avg s.variance r = true :=
        ((mem_anomalyAt js f s.avg s.variance (0 + j) r a).1 hmem).1
      have hrd : r ∈ data := List.get?_mem hg
      obtain ⟨q, hq, hlt⟩ :=
        (anomalyFlagged_iff js f s.avg s.variance r hvar (hstr r hrd)).1 hflag
      rw [hthr] at hlt
      exact ⟨r, q, hg, hq, hlt⟩
    · rintro ⟨r, q, hg, hq, hlt⟩
      rw [← hthr] at hlt
      have hrd : r ∈ data := List.get?_mem hg
      have hflag : anomalyFlagged js f s.avg s.variance r = true :=
        (anomalyFlagged_iff js f s.avg s.variance r hvar (hstr r hrd)).2 ⟨q, hq, hlt⟩
      have hmem0 := (mem_anomalyAt js f s.avg s.variance (0 + i) r _).2 ⟨hflag, rfl⟩
      have hmem1 := (mem_anomaliesFrom js f s.avg s.variance data 0 _).2 ⟨i, r, hg, hmem0⟩
      have hmem2 := (mem_anomalies_iff_field js data fstats f s hnd hlk _).2 hmem1
      exact ⟨_, hmem2.1, rfl, by simp, rfl⟩
  · intro a ha haf
    have hm := (mem_anomalies_iff_field js data fstats f s hnd hlk a).1 ⟨ha, haf⟩
    obtain ⟨j, r, hg, hmem⟩ := (mem_anomaliesFrom js f s.avg s.variance data 0 a).1 hm
    obtain ⟨hflag, hae⟩ := (mem_anomalyAt js f s.avg s.variance (0 + j) r a).1 hmem
    have hrd : r ∈ data := List.get?_mem hg
    obtain ⟨q, hq, hlt⟩ :=
      (anomalyFlagged_iff js f s.avg s.variance r hvar (hstr r hrd)).1 hflag
    refine ⟨q, ?_, ?_⟩
    · rw [hae]
      exact hq
    · rw [hae]
      show (if 0 < anomalyThreshold s.avg s.variance then
          ((((lookupVal r f).bind (jsNumber js)).getD 0 : ℚ) -
            anomalyThreshold s.avg s.variance) / anomalyThreshold s.avg s.variance
        else 0) = _
      rw [hq]
      rw [hthr]
      rfl

/-- Witness for C4: a single record with value 10 against stats
`avg = 1, variance = 4` (threshold 5). -/
theorem c4_anomaly_threshold_witness :
    ((([("a", StatsEntry.numeric ⟨0, 0, 1, 1, 4⟩)].map Prod.fst).Nodup ∧
      getKey [("a", StatsEntry.numeric ⟨0, 0, 1, 1, 4⟩)] "a" =
        some (.numeric ⟨0, 0, 1, 1, 4⟩) ∧
      (0 : ℚ) ≤ (4 : ℚ)) ∧
    (((∃ a ∈ anomalies jsDemo [[("a", some (Value.num 10))]]
          [("a", StatsEntry.numeric ⟨0, 0, 1, 1, 4⟩)],
        a.field = "a" ∧ a.record = 0 ∧ a.type = "outlier_high") ↔
      (∃ r q, ([[("a", some (Value.num 10))]] : List Record).get? 0 = some r ∧
        lookupVal r "a" = some (.num q) ∧
        ((1 : ℚ) : ℝ) + 2 * Real.sqrt (((4 : ℚ) : ℚ) : ℝ) < (q : ℝ))))) := by
  refine ⟨⟨by decide, by decide, by norm_num⟩, ?_⟩
  exact (c4_anomaly_threshold jsDemo [[("a", some (Value.num 10))]]
    [("a", StatsEntry.numeric ⟨0, 0, 1, 1, 4⟩)] "a" ⟨0, 0, 1, 1, 4⟩
    (by decide) (by decide)
    (by
      intro r hr t hcontra
      rw [List.mem_singleton] at hr
      subst hr
      exact Value.noConfusion (Option.some.inj hcontra))
    (by norm_num) 0).1

end Agent
